import Mathlib

/-!
Shallow embedding of the bind-exchange worker (TypeScript sources under
`src/`) together with proofs about its exchange lifecycle, passcode
handling, identifier generation and trust verification.

External collaborators (the jose library, WebCrypto, the KV/R2 stores,
the network) are modelled as explicit function parameters bundled in an
`Env` structure; everything the repository itself computes is translated
directly from the TypeScript.
-/

namespace BindExchange

/-! ## Constants (src/constants.ts) -/

/-- Default expiry: 72 hours in seconds. -/
def DEFAULT_EXPIRY_SECONDS : Int := 72 * 60 * 60

/-- Maximum expiry: 1 year + 1 day in seconds (trusted). -/
def MAX_EXPIRY_SECONDS : Int := 366 * 24 * 60 * 60

/-- Maximum passcode verification attempts before lockout. -/
def MAX_ATTEMPTS : Nat := 10

/-- Generated passcode length (digits). -/
def PASSCODE_LENGTH : Nat := 6

/-- PBKDF2 iteration count. -/
def PBKDF2_ITERATIONS : Nat := 310000

/-- Salt length in bytes for PBKDF2. -/
def PBKDF2_SALT_LENGTH : Nat := 16

/-- Exchange ID length in bytes (produces 43-char base64url string). -/
def EXCHANGE_ID_BYTES : Nat := 32

/-- Maximum payload size (5 MB), trusted exchanges. -/
def MAX_PAYLOAD_SIZE : Nat := 5 * 1024 * 1024

/-- Untrusted expiry: 1 hour in seconds. -/
def UNTRUSTED_EXPIRY_SECONDS : Int := 60 * 60

/-- Untrusted maximum payload size (10 KB). -/
def UNTRUSTED_MAX_PAYLOAD_SIZE : Nat := 10 * 1024

/-- BIND Trust Gateway base URL for JWKS discovery. -/
def TRUST_GATEWAY_URL : String := "https://bind-pki.org"

/-! ## Hex encoding (src/lib/passcode.ts, both variants share this code)

`toHex` mirrors `Array.from(bytes, b => b.toString(16).padStart(2, "0")).join("")`
on `Uint8Array` inputs (every byte is < 256, so `toString(16)` yields at most
two digits and `padStart` makes exactly two).  `fromHex` mirrors the
`parseInt(hex.substring(i, i + 2), 16)` loop, including JS `parseInt`
semantics (maximal hex prefix, `NaN` coerced to 0 by the `Uint8Array` write);
the loop consumes the string two characters at a time. -/

/-- Digits used by JS `Number.prototype.toString(16)`. -/
def hexChars : List Char := "0123456789abcdef".toList

/-- Two lowercase hex digits for one byte. -/
def toHexByte (b : Nat) : List Char :=
  [hexChars.getD (b / 16 % 16) '0', hexChars.getD (b % 16) '0']

/-- Hex-encode a byte list (`toHex` in the source). -/
def toHexChars : List Nat → List Char
  | [] => []
  | b :: rest => toHexByte b ++ toHexChars rest

/-- Hex-encode a byte list to a string. -/
def toHex (bytes : List Nat) : String := ⟨toHexChars bytes⟩

/-- Value of one hex digit as accepted by JS `parseInt(-, 16)`. -/
def hexDigitVal (c : Char) : Option Nat :=
  if '0' ≤ c ∧ c ≤ '9' then some (c.toNat - '0'.toNat)
  else if 'a' ≤ c ∧ c ≤ 'f' then some (c.toNat - 'a'.toNat + 10)
  else if 'A' ≤ c ∧ c ≤ 'F' then some (c.toNat - 'A'.toNat + 10)
  else none

/-- JS `parseInt("<c1><c2>", 16)` followed by the `Uint8Array` store
(maximal valid prefix; `NaN` becomes 0). -/
def hexPairVal (c1 c2 : Char) : Nat :=
  match hexDigitVal c1 with
  | none => 0
  | some v1 =>
    match hexDigitVal c2 with
    | none => v1
    | some v2 => 16 * v1 + v2

/-- Decode a hex character list two characters at a time (`fromHex`). -/
def fromHexChars : List Char → List Nat
  | [] => []
  | [c] => [(hexDigitVal c).getD 0]
  | c1 :: c2 :: rest => hexPairVal c1 c2 :: fromHexChars rest

/-- Decode a hex string to bytes (`fromHex` in the source). -/
def fromHex (s : String) : List Nat := fromHexChars s.data

/-! ## JS `String.prototype.split(":")` on character lists -/

/-- Split a character list on the colon separator, JS `split(":")` style:
the result always has at least one element and has `n + 1` elements when
the input contains `n` colons. -/
def splitOnColon : List Char → List (List Char)
  | [] => [[]]
  | c :: rest =>
    if c = ':' then [] :: splitOnColon rest
    else
      match splitOnColon rest with
      | [] => [[c]]
      | h :: t => (c :: h) :: t

/-! ## Credential Guard (src/lib/passcode.ts, two variants)

The repository contains two implementations of the passcode module: one
deriving the key with `@noble/hashes` `pbkdf2(sha256, ..., {c, dkLen: 32})`
and one with WebCrypto `crypto.subtle.deriveBits` (256 bits, PBKDF2,
SHA-256).  Both are glue around PBKDF2-SHA256, which is modelled as an
abstract function `kdf passcode salt iterations dkLenBytes`; each variant
passes its own literal parameters.  The random salt drawn by
`crypto.getRandomValues` is an explicit argument.

`crypto.subtle.timingSafeEqual` (Workers extension) returns content
equality of two equal-length buffers; the sources guard the length first.
A `none` result of `verifyPasscode` marks the path where the JS code
throws (stored string without a colon: `fromHex(undefined)` raises). -/

/-- Byte-content equality, the value computed by `timingSafeEqual`. -/
def timingSafeEqual (a b : List Nat) : Bool := a == b

/-- Key derivation of the noble-hashes variant:
`pbkdf2(sha256, passcode, salt, { c: PBKDF2_ITERATIONS, dkLen: 32 })`. -/
def deriveKey_noble (kdf : String → List Nat → Nat → Nat → List Nat)
    (passcode : String) (salt : List Nat) : List Nat :=
  kdf passcode salt PBKDF2_ITERATIONS 32

/-- Key derivation of the WebCrypto variant:
`crypto.subtle.deriveBits({name: "PBKDF2", salt, iterations: PBKDF2_ITERATIONS,
hash: "SHA-256"}, keyMaterial, 256)` — 256 bits, i.e. `256 / 8` bytes. -/
def deriveKey_web (kdf : String → List Nat → Nat → Nat → List Nat)
    (passcode : String) (salt : List Nat) : List Nat :=
  kdf passcode salt PBKDF2_ITERATIONS (256 / 8)

/-- `hashPasscode` of the noble-hashes variant (salt made explicit). -/
def hashPasscode_noble (kdf : String → List Nat → Nat → Nat → List Nat)
    (passcode : String) (salt : List Nat) : String :=
  toHex salt ++ ":" ++ toHex (deriveKey_noble kdf passcode salt)

/-- `hashPasscode` of the WebCrypto variant (salt made explicit). -/
def hashPasscode_web (kdf : String → List Nat → Nat → Nat → List Nat)
    (passcode : String) (salt : List Nat) : String :=
  toHex salt ++ ":" ++ toHex (deriveKey_web kdf passcode salt)

/-- `verifyPasscode` of the noble-hashes variant. -/
def verifyPasscode_noble (kdf : String → List Nat → Nat → Nat → List Nat)
    (passcode stored : String) : Option Bool :=
  match splitOnColon stored.data with
  | saltHex :: hashHex :: _ =>
    let salt := fromHexChars saltHex
    let hash := deriveKey_noble kdf passcode salt
    let expected := fromHexChars hashHex
    some (if expected.length ≠ hash.length then false
          else timingSafeEqual expected hash)
  | _ => none

/-- `verifyPasscode` of the WebCrypto variant (`actual = new Uint8Array(hash)`
is the byte view of the derived bits). -/
def verifyPasscode_web (kdf : String → List Nat → Nat → Nat → List Nat)
    (passcode stored : String) : Option Bool :=
  match splitOnColon stored.data with
  | saltHex :: hashHex :: _ =>
    let salt := fromHexChars saltHex
    let hash := deriveKey_web kdf passcode salt
    let expected := fromHexChars hashHex
    let actual := hash
    some (if expected.length ≠ actual.length then false
          else timingSafeEqual expected actual)
  | _ => none

/-! ## base64 / base64url (src/lib/crypto.ts)

`base64url(bytes)` is `btoa(binString)` over the byte string followed by
`replace(/\+/g, "-").replace(/\//g, "_").replace(/=+$/, "")`.  `btoa` is
standard base64 over 8-bit code units, modelled on byte lists three bytes
per group. -/

/-- Standard base64 alphabet used by `btoa`. -/
def b64StdChars : List Char :=
  "ABCDEFGHIJKLMNOPQRSTUVWXYZabcdefghijklmnopqrstuvwxyz0123456789+/".toList

/-- Base64url alphabet (after the two character replacements). -/
def b64UrlChars : List Char :=
  "ABCDEFGHIJKLMNOPQRSTUVWXYZabcdefghijklmnopqrstuvwxyz0123456789-_".toList

/-- Character at one 6-bit index of the standard alphabet. -/
def b64char (n : Nat) : Char := b64StdChars.getD n 'A'

/-- `btoa` on a byte list: three bytes become four alphabet characters,
a trailing group of one or two bytes is padded with `=`. -/
def btoaGroups : List Nat → List Char
  | [] => []
  | [b1] => [b64char (b1 / 4), b64char (b1 % 4 * 16), '=', '=']
  | [b1, b2] =>
    [b64char (b1 / 4), b64char (b1 % 4 * 16 + b2 / 16), b64char (b2 % 16 * 4), '=']
  | b1 :: b2 :: b3 :: rest =>
    b64char (b1 / 4) :: b64char (b1 % 4 * 16 + b2 / 16) ::
      b64char (b2 % 16 * 4 + b3 / 64) :: b64char (b3 % 64) :: btoaGroups rest

/-- The two global character replacements `+ → -` and `/ → _`. -/
def b64urlChar (c : Char) : Char :=
  if c = '+' then '-' else if c = '/' then '_' else c

/-- `replace(/=+$/, "")`: strip the trailing padding characters. -/
def dropTrailingEq (l : List Char) : List Char :=
  (l.reverse.dropWhile (· = '=')).reverse

/-- `base64url` from src/lib/crypto.ts on a byte list. -/
def base64url (bytes : List Nat) : String :=
  ⟨dropTrailingEq ((btoaGroups bytes).map b64urlChar)⟩

/-- `generateExchangeId`, with the `crypto.getRandomValues` output made an
explicit argument (a list of `EXCHANGE_ID_BYTES` random bytes). -/
def generateExchangeId (bytes : List Nat) : String := base64url bytes

/-! ## Data model (src/types.ts) -/

/-- Protected header of a JWE compact serialization as decoded by jose's
`decodeProtectedHeader` (fields may be absent). -/
structure JweHeader where
  alg : Option String
  enc : Option String
deriving DecidableEq

/-- Protected header of the proof JWS. -/
structure JwsHeader where
  alg : Option String
deriving DecidableEq

/-- JWT claims relevant to the proof payload. -/
structure JwtPayload where
  iss : Option String
  sub : Option String
deriving DecidableEq

/-- Exchange metadata stored in KV (`ExchangeMetadata`). -/
structure ExchangeMetadata where
  passcodeHash : Option String
  exp : Int
  attempts : Nat
  label : Option String
  createdAt : Int
  trusted : Bool
  iss : Option String
deriving DecidableEq

/-- POST /exchange request body (`CreateExchangeRequest`). -/
structure CreateExchangeRequest where
  payload : String
  passcode : Option String
  label : Option String
  exp : Option Int
  proof : Option String
deriving DecidableEq

/-- POST /exchange 201 response body (`CreateExchangeResponse`).  The
handler never sets `passcode`; the field is kept to mirror the schema. -/
structure CreateExchangeResponse where
  url : String
  exp : Int
  flag : String
  passcode : Option String
  trusted : Bool
  iss : Option String
deriving DecidableEq

/-- POST /exchange/:id/manifest.json request body. -/
structure RetrieveManifestRequest where
  recipient : String
  passcode : Option String
deriving DecidableEq

/-- One manifest file descriptor. -/
structure ManifestFile where
  contentType : String
  embedded : String
deriving DecidableEq

/-- Error body shape (`ErrorSchema`). -/
structure ErrorBody where
  error : String
  remainingAttempts : Option Int
  authRequired : Option Bool
deriving DecidableEq

/-- JSON body of a retrieval response. -/
inductive RetrieveBody where
  | err (e : ErrorBody)
  | manifest (files : List ManifestFile)
deriving DecidableEq

/-- HTTP response of the retrieval route: status code and JSON body. -/
structure RetrieveResponse where
  status : Nat
  body : RetrieveBody
deriving DecidableEq

/-- Result of the creation route. -/
inductive CreateResult where
  | created (r : CreateExchangeResponse)
  | badRequest (error : String)
  | tooLarge (error : String)
deriving DecidableEq

/-- Result of trust verification (`VerificationResult`). -/
structure VerificationResult where
  trusted : Bool
  iss : Option String
deriving DecidableEq

/-! ## Storage (src/lib/storage.ts)

KV and R2 are modelled as partial maps from full key strings.  A KV entry
keeps the `expirationTtl` passed at the write so that TTL recomputation is
observable; reads ignore it. -/

/-- One KV entry: stored metadata plus the TTL passed to `kv.put`. -/
structure KVEntry where
  value : ExchangeMetadata
  ttl : Int
deriving DecidableEq

/-- The two stores an exchange lives in. -/
structure Store where
  kv : String → Option KVEntry
  bucket : String → Option String

/-- Store with no entries. -/
def emptyStore : Store := ⟨fun _ => none, fun _ => none⟩

/-- Point update of a partial map. -/
def mapPut {α : Type} (m : String → Option α) (k : String) (v : α) :
    String → Option α :=
  fun k' => if k' = k then some v else m k'

/-- Point deletion of a partial map. -/
def mapDel {α : Type} (m : String → Option α) (k : String) :
    String → Option α :=
  fun k' => if k' = k then none else m k'

/-- KV key for an exchange id (`KV_PREFIX` is `"exchange"`). -/
def kvKey (id : String) : String := "exchange:" ++ id

/-- R2 object key for an exchange id (`R2_PREFIX` is `"exchanges"`). -/
def r2Key (id : String) : String := "exchanges/" ++ id ++ "/payload.jwe"

/-- `storePayload`. -/
def storePayload (s : Store) (id jwe : String) : Store :=
  { s with bucket := mapPut s.bucket (r2Key id) jwe }

/-- `loadPayload`. -/
def loadPayload (s : Store) (id : String) : Option String :=
  s.bucket (r2Key id)

/-- `deletePayload`. -/
def deletePayload (s : Store) (id : String) : Store :=
  { s with bucket := mapDel s.bucket (r2Key id) }

/-- `storeMetadata` with an explicit TTL. -/
def storeMetadata (s : Store) (id : String) (metadata : ExchangeMetadata)
    (ttlSeconds : Int) : Store :=
  { s with kv := mapPut s.kv (kvKey id) ⟨metadata, ttlSeconds⟩ }

/-- `loadMetadata`. -/
def loadMetadata (s : Store) (id : String) : Option ExchangeMetadata :=
  (s.kv (kvKey id)).map (·.value)

/-- `updateMetadata`: rewrite the record with
`Math.max(1, Math.floor((metadata.exp - Date.now()) / 1000))` as TTL
(`Math.floor` on the possibly-negative quotient is `Int.fdiv`). -/
def updateMetadata (s : Store) (id : String) (metadata : ExchangeMetadata)
    (now : Int) : Store :=
  let ttlSeconds : Int := max 1 ((metadata.exp - now).fdiv 1000)
  { s with kv := mapPut s.kv (kvKey id) ⟨metadata, ttlSeconds⟩ }

/-- `deleteMetadata`. -/
def deleteMetadata (s : Store) (id : String) : Store :=
  { s with kv := mapDel s.kv (kvKey id) }

/-! ## External collaborators

Everything effectful that the worker delegates to libraries or the
network is collected in `Env`: jose's decoders, the remote JWKS fetch
plus signature verification, WebCrypto's SHA-256, the salted passcode
hash (randomness included), and URL resolution against the request URL. -/

/-- Oracle bundle for the effectful collaborators of the routes. -/
structure Env where
  jweDecode : String → Except String JweHeader
  jwsDecode : String → Option JwsHeader
  decodeJwtClaims : String → Option JwtPayload
  jwtVerifyRemote : String → String → Except Unit JwtPayload
  sha256b64url : String → String
  hashPasscode : String → String
  mkUrl : String → String

/-! ## Trust Verifier (src/lib/verify.ts) -/

/-- JWKS discovery URL:
`new URL("/" + iss + "/.well-known/jwks.json", TRUST_GATEWAY_URL)`. -/
def jwksUrl (iss : String) : String :=
  TRUST_GATEWAY_URL ++ "/" ++ iss ++ "/.well-known/jwks.json"

/-- `verifyExchangeProof`: every throwing step (header decode, claims
decode, remote fetch, signature verification) is a `none`/`error` of the
corresponding oracle and lands in the catch-all `{ trusted: false }`. -/
def verifyExchangeProof (env : Env) (jwe proof : String) : VerificationResult :=
  match env.jwsDecode proof with
  | none => ⟨false, none⟩
  | some header =>
    if header.alg ≠ some "ES256" then ⟨false, none⟩
    else
      match env.decodeJwtClaims proof with
      | none => ⟨false, none⟩
      | some unverified =>
        match unverified.iss with
        | none => ⟨false, none⟩
        | some iss =>
          if iss = "" then ⟨false, none⟩
          else
            match env.jwtVerifyRemote (jwksUrl iss) proof with
            | .error _ => ⟨false, none⟩
            | .ok payload =>
              if payload.sub ≠ some (env.sha256b64url jwe) then ⟨false, none⟩
              else ⟨true, some iss⟩

/-! ## JWE header validation (src/lib/crypto.ts) -/

/-- Rendering of a possibly-absent header field inside the template
literal (`undefined` prints as "undefined"). -/
def showField : Option String → String
  | some s => s
  | none => "undefined"

/-- `validateJweHeader`: decode the protected header and require
`alg = "dir"` and `enc = "A256GCM"`; errors carry the thrown message. -/
def validateJweHeader (decode : String → Except String JweHeader)
    (jwe : String) : Except String Unit :=
  match decode jwe with
  | .error e => .error e
  | .ok header =>
    if header.alg ≠ some "dir" then
      .error ("Invalid JWE alg: expected \"dir\", got \"" ++ showField header.alg ++ "\"")
    else if header.enc ≠ some "A256GCM" then
      .error ("Invalid JWE enc: expected \"A256GCM\", got \"" ++ showField header.enc ++ "\"")
    else .ok ()

/-! ## Creation route (src/routes/exchange.ts, createExchangeRoute) -/

/-- Trust classification during creation: `verifyExchangeProof` is
invoked only when `body.proof` is truthy. -/
def createTrust (env : Env) (req : CreateExchangeRequest) : VerificationResult :=
  match req.proof with
  | some pf => if pf = "" then ⟨false, none⟩ else verifyExchangeProof env req.payload pf
  | none => ⟨false, none⟩

/-- 413 message: `Payload too large for ${tier} tier (max ...)` with
`limitKb = Math.round(maxPayload / 1024)` (exact division for both
tiers). -/
def payloadTooLargeMsg (trusted : Bool) (maxPayload : Nat) : String :=
  let tier := if trusted then "trusted" else "untrusted"
  let limitKb := maxPayload / 1024
  let limitStr :=
    if limitKb ≥ 1024 then toString (limitKb / 1024) ++ "MB"
    else toString limitKb ++ "KB"
  "Payload too large for " ++ tier ++ " tier (max " ++ limitStr ++ ")"

/-- Tier payload bound: `trusted ? MAX_PAYLOAD_SIZE : UNTRUSTED_MAX_PAYLOAD_SIZE`. -/
def maxPayloadFor (trusted : Bool) : Nat :=
  if trusted then MAX_PAYLOAD_SIZE else UNTRUSTED_MAX_PAYLOAD_SIZE

/-- Effective expiry seconds:
`Math.min(body.exp ?? defaultExpiry, maxExpiry)` with the tier's default
and maximum. -/
def expSecondsFor (req : CreateExchangeRequest) (trusted : Bool) : Int :=
  let maxExpiry := if trusted then MAX_EXPIRY_SECONDS else UNTRUSTED_EXPIRY_SECONDS
  let defaultExpiry := if trusted then DEFAULT_EXPIRY_SECONDS else UNTRUSTED_EXPIRY_SECONDS
  min (req.exp.getD defaultExpiry) maxExpiry

/-- `body.passcode ? await hashPasscode(body.passcode) : undefined`
(JS truthiness: the empty string counts as absent). -/
def passcodeHashFor (env : Env) (req : CreateExchangeRequest) : Option String :=
  match req.passcode with
  | some p => if p = "" then none else some (env.hashPasscode p)
  | none => none

/-- Truthiness of the computed hash, tested by `passcodeHash ? ... : ...`
both for the stored field and for the response flag. -/
def hashTruthyFor (env : Env) (req : CreateExchangeRequest) : Bool :=
  match passcodeHashFor env req with
  | some h => h ≠ ""
  | none => false

/-- The metadata record written by the creation handler. -/
def createdMetadata (env : Env) (now : Int) (req : CreateExchangeRequest)
    (tr : VerificationResult) : ExchangeMetadata :=
  { passcodeHash := if hashTruthyFor env req then passcodeHashFor env req else none
    exp := now + expSecondsFor req tr.trusted * 1000
    attempts := 0
    label := req.label
    createdAt := now
    trusted := tr.trusted
    iss := tr.iss }

/-- The 201 response body built by the creation handler (the object
literal carries no `passcode` key, modelled as `none`). -/
def createdResponse (env : Env) (now : Int) (id : String)
    (req : CreateExchangeRequest) (tr : VerificationResult) :
    CreateExchangeResponse :=
  let issTruthy : Bool :=
    match tr.iss with
    | some i => i ≠ ""
    | none => false
  { url := env.mkUrl id
    exp := now + expSecondsFor req tr.trusted * 1000
    flag := if hashTruthyFor env req then "P" else ""
    passcode := none
    trusted := tr.trusted
    iss := if issTruthy then tr.iss else none }

/-- The two writes of the creation handler (`Promise.all` of
`storePayload` and `storeMetadata`). -/
def createdStore (env : Env) (now : Int) (id : String)
    (req : CreateExchangeRequest) (tr : VerificationResult) (s : Store) :
    Store :=
  storeMetadata (storePayload s id req.payload) id
    (createdMetadata env now req tr) (expSecondsFor req tr.trusted)

/-- The `createExchangeRoute` handler.  `now` stands for `Date.now()`
(called at expiry computation and at `createdAt` within the same
request), `id` for the freshly generated identifier. -/
def createExchange (env : Env) (now : Int) (id : String)
    (req : CreateExchangeRequest) (s : Store) : CreateResult × Store :=
  match validateJweHeader env.jweDecode req.payload with
  | .error msg => (.badRequest msg, s)
  | .ok _ =>
    let tr := createTrust env req
    if req.payload.length > maxPayloadFor tr.trusted then
      (.tooLarge (payloadTooLargeMsg tr.trusted (maxPayloadFor tr.trusted)), s)
    else
      (.created (createdResponse env now id req tr),
        createdStore env now id req tr s)

/-! ## Retrieval route (src/routes/exchange.ts, retrieveManifestRoute) -/

/-- Final payload load and manifest assembly of the retrieval handler. -/
def finishLoad (s : Store) (id : String) : RetrieveResponse × Store :=
  match loadPayload s id with
  | none => (⟨404, .err ⟨"Payload not found", none, none⟩⟩, s)
  | some jwe =>
    (⟨200, .manifest [⟨"application/bind+json", jwe⟩]⟩, s)

/-- The `retrieveManifestRoute` handler.  `vp` is the Credential Guard's
`verifyPasscode` (a `none` is a thrown exception, surfaced by the
framework as a 500). -/
def retrieveManifest (vp : String → String → Option Bool) (now : Int)
    (id : String) (req : RetrieveManifestRequest) (s : Store) :
    RetrieveResponse × Store :=
  match loadMetadata s id with
  | none => (⟨404, .err ⟨"Exchange not found or expired", none, none⟩⟩, s)
  | some metadata =>
    if now > metadata.exp then
      (⟨404, .err ⟨"Exchange has expired", none, none⟩⟩,
        deletePayload (deleteMetadata s id) id)
    else if metadata.attempts ≥ MAX_ATTEMPTS then
      (⟨429, .err ⟨"Too many failed attempts. Exchange has been locked.", some 0, none⟩⟩,
        deletePayload (deleteMetadata s id) id)
    else
      match metadata.passcodeHash with
      | some storedHash =>
        match req.passcode with
        | none => (⟨401, .err ⟨"Passcode required", none, some true⟩⟩, s)
        | some p =>
          if p = "" then (⟨401, .err ⟨"Passcode required", none, some true⟩⟩, s)
          else
            match vp p storedHash with
            | none => (⟨500, .err ⟨"Internal Server Error", none, none⟩⟩, s)
            | some true => finishLoad s id
            | some false =>
              let metadata' := { metadata with attempts := metadata.attempts + 1 }
              let remaining : Int := (MAX_ATTEMPTS : Int) - (metadata'.attempts : Int)
              let s1 := updateMetadata s id metadata' now
              let s2 := if remaining ≤ 0 then deletePayload s1 id else s1
              (⟨401, .err ⟨"Invalid passcode", some remaining, none⟩⟩, s2)
      | none => finishLoad s id

/-- Iterated retrievals against one exchange id: each list element is a
request time paired with the request body. -/
def runRetrieves (vp : String → String → Option Bool) (id : String) :
    List (Int × RetrieveManifestRequest) → Store → Store
  | [], s => s
  | (t, req) :: rest, s =>
    runRetrieves vp id rest (retrieveManifest vp t id req s).2

/-- Iterated retrievals against arbitrary ids (time, id, body). -/
def runAnyRetrieves (vp : String → String → Option Bool) :
    List (Int × String × RetrieveManifestRequest) → Store → Store
  | [], s => s
  | (t, i, req) :: rest, s =>
    runAnyRetrieves vp rest (retrieveManifest vp t i req s).2

/-- The exchange at `id` is locked out: if its metadata record is still
present, its attempt counter has reached `MAX_ATTEMPTS` (the record may
also already be deleted). -/
def lockedOut (s : Store) (id : String) : Prop :=
  ∀ e, s.kv (kvKey id) = some e → MAX_ATTEMPTS ≤ e.value.attempts

/-! ## Concrete fixtures used by witness theorems -/

/-- Concrete stand-in for PBKDF2-SHA256 used in witnesses. -/
def kdfC : String → List Nat → Nat → Nat → List Nat :=
  fun _ _ _ dkLen => List.replicate dkLen 7

/-- Concrete environment: JWE header decodes as dir/A256GCM, the remote
signature verification fails. -/
def envC : Env :=
  { jweDecode := fun _ => .ok ⟨some "dir", some "A256GCM"⟩
    jwsDecode := fun _ => some ⟨some "ES256"⟩
    decodeJwtClaims := fun _ => some ⟨some "acme", some "s"⟩
    jwtVerifyRemote := fun _ _ => .error ()
    sha256b64url := fun _ => "s"
    hashPasscode := fun _ => "aa:bb"
    mkUrl := fun i => "https://x/exchange/" ++ i ++ "/manifest.json" }

/-- Concrete passcode-less creation request. -/
def reqC : CreateExchangeRequest :=
  { payload := "abc", passcode := none, label := none, exp := some 100, proof := none }

/-- Concrete passcode-protected, unexpired metadata record. -/
def metaC : ExchangeMetadata :=
  { passcodeHash := some "H", exp := 1000, attempts := 0, label := none
    createdAt := 0, trusted := false, iss := none }

/-- Concrete expired metadata record. -/
def metaExpC : ExchangeMetadata :=
  { passcodeHash := none, exp := 0, attempts := 0, label := none
    createdAt := 0, trusted := false, iss := none }

/-- Concrete store holding `metaC` and a payload at id "i". -/
def storeC : Store :=
  ⟨fun k => if k = kvKey "i" then some ⟨metaC, 10⟩ else none,
    fun k => if k = r2Key "i" then some "JWE" else none⟩

/-- Concrete store holding the expired `metaExpC` at id "i". -/
def storeExpC : Store :=
  ⟨fun k => if k = kvKey "i" then some ⟨metaExpC, 10⟩ else none,
    fun k => if k = r2Key "i" then some "JWE" else none⟩

/-- Concrete passcode verifier: only "good" verifies against "H". -/
def vpC : String → String → Option Bool :=
  fun p h => some (p == "good" && h == "H")

/-! ## Theorems -/

/-! ### Map and store helper lemmas -/

theorem mapPut_self {α : Type} (m : String → Option α) (k : String) (v : α) :
    mapPut m k v k = some v := by
  simp [mapPut]

theorem mapPut_ne {α : Type} (m : String → Option α) (k : String) (v : α)
    (k' : String) (h : k' ≠ k) : mapPut m k v k' = m k' := by
  simp [mapPut, h]

theorem mapDel_self {α : Type} (m : String → Option α) (k : String) :
    mapDel m k k = none := by
  simp [mapDel]

theorem mapDel_ne {α : Type} (m : String → Option α) (k k' : String)
    (h : k' ≠ k) : mapDel m k k' = m k' := by
  simp [mapDel, h]

theorem kvKey_inj {a b : String} (h : kvKey a = kvKey b) : a = b := by
  unfold kvKey at h
  have := congrArg String.data h
  simp only [String.data_append] at this
  exact String.ext (List.append_cancel_left this)

theorem r2Key_inj {a b : String} (h : r2Key a = r2Key b) : a = b := by
  unfold r2Key at h
  have := congrArg String.data h
  simp only [String.data_append, List.append_assoc] at this
  have h2 := List.append_cancel_left this
  exact String.ext (List.append_cancel_right h2)

/-! ### Creation handler lemmas -/

theorem createExchange_ok (env : Env) (now : Int) (id : String)
    (req : CreateExchangeRequest) (s : Store) (hdr : JweHeader)
    (hd : env.jweDecode req.payload = .ok hdr)
    (ha : hdr.alg = some "dir") (he : hdr.enc = some "A256GCM")
    (hsize : req.payload.length ≤ maxPayloadFor (createTrust env req).trusted) :
    createExchange env now id req s =
      (.created (createdResponse env now id req (createTrust env req)),
        createdStore env now id req (createTrust env req) s) := by
  unfold createExchange validateJweHeader
  rw [hd]
  simp [ha, he, Nat.not_lt.mpr hsize]

theorem createExchange_created_inv (env : Env) (now : Int) (id : String)
    (req : CreateExchangeRequest) (s : Store) (r : CreateExchangeResponse)
    (s' : Store) (hc : createExchange env now id req s = (.created r, s')) :
    r = createdResponse env now id req (createTrust env req) ∧
    s' = createdStore env now id req (createTrust env req) s := by
  unfold createExchange at hc
  cases hv : validateJweHeader env.jweDecode req.payload with
  | error e => rw [hv] at hc; simp at hc
  | ok u =>
    rw [hv] at hc
    by_cases hs : req.payload.length > maxPayloadFor (createTrust env req).trusted
    · simp [hs] at hc
    · simp [hs] at hc
      exact ⟨hc.1.symm, hc.2.symm⟩

/-- Claim C6: trust verification is fail-closed and total.
`verifyExchangeProof` always returns a result (never raises), and it
returns `trusted = false` with no issuer when the proof header fails to
decode, when the header algorithm is not ES256, when the payload issuer
is absent, when the key directory fetch or the signature verification
fails, or when the payload subject differs from the SHA-256 base64url
hash of the ciphertext; it returns `trusted = true` with the issuer only
when every check passes. -/
theorem claim_C6_fail_closed (env : Env) (jwe proof : String) :
    ((verifyExchangeProof env jwe proof).trusted = false →
      (verifyExchangeProof env jwe proof).iss = none) ∧
    (env.jwsDecode proof = none →
      verifyExchangeProof env jwe proof = ⟨false, none⟩) ∧
    (∀ h, env.jwsDecode proof = some h → h.alg ≠ some "ES256" →
      verifyExchangeProof env jwe proof = ⟨false, none⟩) ∧
    (env.decodeJwtClaims proof = none →
      verifyExchangeProof env jwe proof = ⟨false, none⟩) ∧
    (∀ u, env.decodeJwtClaims proof = some u → u.iss = none →
      verifyExchangeProof env jwe proof = ⟨false, none⟩) ∧
    (∀ u i, env.decodeJwtClaims proof = some u → u.iss = some i →
      env.jwtVerifyRemote (jwksUrl i) proof = .error () →
      verifyExchangeProof env jwe proof = ⟨false, none⟩) ∧
    (∀ u i p, env.decodeJwtClaims proof = some u → u.iss = some i →
      env.jwtVerifyRemote (jwksUrl i) proof = .ok p →
      p.sub ≠ some (env.sha256b64url jwe) →
      verifyExchangeProof env jwe proof = ⟨false, none⟩) ∧
    ((verifyExchangeProof env jwe proof).trusted = true →
      ∃ h u i p, env.jwsDecode proof = some h ∧ h.alg = some "ES256" ∧
        env.decodeJwtClaims proof = some u ∧ u.iss = some i ∧ i ≠ "" ∧
        env.jwtVerifyRemote (jwksUrl i) proof = .ok p ∧
        p.sub = some (env.sha256b64url jwe) ∧
        verifyExchangeProof env jwe proof = ⟨true, some i⟩) := by
  unfold verifyExchangeProof
  cases hh : env.jwsDecode proof with
  | none => simp
  | some h =>
    by_cases halg : h.alg = some "ES256"
    · cases hj : env.decodeJwtClaims proof with
      | none => simp [halg]
      | some u =>
        cases hi : u.iss with
        | none => simp [halg, hi]
        | some i =>
          by_cases hie : i = ""
          · simp [halg, hi, hie]
          · cases hr : env.jwtVerifyRemote (jwksUrl i) proof with
            | error e => simp [halg, hi, hie, hr]
            | ok p =>
              by_cases hs : p.sub = some (env.sha256b64url jwe)
              · refine ⟨?_, ?_, ?_, ?_, ?_, ?_, ?_, ?_⟩ <;>
                  simp_all
              · simp [halg, hi, hie, hr, hs]
    · simp [halg]

/-- Claim C6 witness: at a concrete environment whose remote
verification fails, the proof is rejected as untrusted. -/
theorem claim_C6_witness :
    (let env : Env :=
      { jweDecode := fun _ => .error "x"
        jwsDecode := fun _ => some ⟨some "ES256"⟩
        decodeJwtClaims := fun _ => some ⟨some "acme", some "s"⟩
        jwtVerifyRemote := fun _ _ => .error ()
        sha256b64url := fun _ => "s"
        hashPasscode := fun p => p
        mkUrl := fun i => i }
    verifyExchangeProof env "jwe" "proof" = ⟨false, none⟩) := by
  exact (claim_C6_fail_closed _ "jwe" "proof").2.2.2.2.2.1
    ⟨some "acme", some "s"⟩ "acme" rfl rfl rfl

/-- Claim C7: for a successful creation the effective expiry in seconds
equals `min(requestedExpirySeconds ?? tier_default, tier_max)`, where the
trusted tier has default `DEFAULT_EXPIRY_SECONDS` (72 h) and maximum
`MAX_EXPIRY_SECONDS` (366 days) and the untrusted tier uses
`UNTRUSTED_EXPIRY_SECONDS` (1 h) for both; the absolute expiry returned
and stored is `now` plus the effective seconds in milliseconds, and the
KV write uses the effective seconds as TTL. -/
theorem claim_C7_expiry (env : Env) (now : Int) (id : String)
    (req : CreateExchangeRequest) (s : Store) (hdr : JweHeader)
    (hd : env.jweDecode req.payload = .ok hdr)
    (ha : hdr.alg = some "dir") (he : hdr.enc = some "A256GCM")
    (hsize : req.payload.length ≤ maxPayloadFor (createTrust env req).trusted) :
    ∃ r s', createExchange env now id req s = (.created r, s') ∧
      r.exp = now +
        min (req.exp.getD (if (createTrust env req).trusted then
              DEFAULT_EXPIRY_SECONDS else UNTRUSTED_EXPIRY_SECONDS))
          (if (createTrust env req).trusted then
              MAX_EXPIRY_SECONDS else UNTRUSTED_EXPIRY_SECONDS) * 1000 ∧
      (∃ e, s'.kv (kvKey id) = some e ∧ e.value.exp = r.exp ∧
        e.ttl = min (req.exp.getD (if (createTrust env req).trusted then
              DEFAULT_EXPIRY_SECONDS else UNTRUSTED_EXPIRY_SECONDS))
          (if (createTrust env req).trusted then
              MAX_EXPIRY_SECONDS else UNTRUSTED_EXPIRY_SECONDS)) ∧
      DEFAULT_EXPIRY_SECONDS = 72 * 60 * 60 ∧
      MAX_EXPIRY_SECONDS = 366 * 24 * 60 * 60 ∧
      UNTRUSTED_EXPIRY_SECONDS = 60 * 60 := by
  refine ⟨createdResponse env now id req (createTrust env req),
    createdStore env now id req (createTrust env req) s,
    createExchange_ok env now id req s hdr hd ha he hsize, ?_, ?_, ?_, ?_, ?_⟩
  · simp [createdResponse, expSecondsFor]
  · refine ⟨⟨createdMetadata env now req (createTrust env req),
      expSecondsFor req (createTrust env req).trusted⟩, ?_, ?_, ?_⟩
    · exact mapPut_self _ _ _
    · simp [createdMetadata, createdResponse]
    · simp [expSecondsFor]
  · decide
  · decide
  · decide

/-- Claim C7 witness: at a concrete untrusted request asking for 100
seconds, creation succeeds and the stored expiry is `min(100, 3600)`
seconds after `now`. -/
theorem claim_C7_witness :
    reqC.payload.length ≤ maxPayloadFor (createTrust envC reqC).trusted ∧
    ∃ r s', createExchange envC 0 "i" reqC emptyStore = (.created r, s') ∧
      r.exp = 0 +
        min (reqC.exp.getD (if (createTrust envC reqC).trusted then
              DEFAULT_EXPIRY_SECONDS else UNTRUSTED_EXPIRY_SECONDS))
          (if (createTrust envC reqC).trusted then
              MAX_EXPIRY_SECONDS else UNTRUSTED_EXPIRY_SECONDS) * 1000 := by
  refine ⟨by decide, ?_⟩
  obtain ⟨r, s', hc, hexp, -, -, -, -⟩ :=
    claim_C7_expiry envC 0 "i" reqC emptyStore ⟨some "dir", some "A256GCM"⟩
      rfl rfl rfl (by decide)
  exact ⟨r, s', hc, hexp⟩

/-- Claim C3 (code divergence): the creation handler never returns a
generated passcode.  For every successful creation without a supplied
passcode the response's `passcode` field is absent, the access flag is
empty and no passcode hash is stored — although the route's own response
schema documents `passcode` as "Generated passcode (only present if none
was provided in the request)" and `generatePasscode` exists in the
passcode module, the handler never calls it. -/
theorem claim_C3_no_generated_passcode (env : Env) (now : Int) (id : String)
    (req : CreateExchangeRequest) (s : Store) (r : CreateExchangeResponse)
    (s' : Store) (hpc : req.passcode = none)
    (hc : createExchange env now id req s = (.created r, s')) :
    r.passcode = none ∧ r.flag = "" ∧
    ∃ e, s'.kv (kvKey id) = some e ∧ e.value.passcodeHash = none := by
  obtain ⟨hr, hs⟩ := createExchange_created_inv env now id req s r s' hc
  subst hr hs
  refine ⟨rfl, ?_, ?_⟩
  · simp [createdResponse, hashTruthyFor, passcodeHashFor, hpc]
  · refine ⟨⟨createdMetadata env now req (createTrust env req),
      expSecondsFor req (createTrust env req).trusted⟩, mapPut_self _ _ _, ?_⟩
    simp [createdMetadata, hashTruthyFor, passcodeHashFor, hpc]

/-- Claim C3 witness: a concrete passcode-less creation succeeds and its
response carries no passcode. -/
theorem claim_C3_witness :
    reqC.passcode = none ∧
    createExchange envC 0 "i" reqC emptyStore =
      (.created (createdResponse envC 0 "i" reqC (createTrust envC reqC)),
        createdStore envC 0 "i" reqC (createTrust envC reqC) emptyStore) ∧
    (createdResponse envC 0 "i" reqC (createTrust envC reqC)).passcode = none :=
  ⟨rfl, rfl,
    (claim_C3_no_generated_passcode envC 0 "i" reqC emptyStore _ _ rfl rfl).1⟩

/-- Claim C8: retrieving a passcode-protected, non-expired, non-locked
exchange without supplying a passcode fails with the 401
`Passcode required` / `authRequired` error and returns the store
completely unchanged: no attempt increment, no write, no deletion. -/
theorem claim_C8_auth_required (vp : String → String → Option Bool)
    (now : Int) (id recip : String) (s : Store) (m : ExchangeMetadata)
    (h : String) (hm : loadMetadata s id = some m) (hx : ¬ now > m.exp)
    (hatt : m.attempts < MAX_ATTEMPTS) (hph : m.passcodeHash = some h) :
    retrieveManifest vp now id ⟨recip, none⟩ s =
      (⟨401, .err ⟨"Passcode required", none, some true⟩⟩, s) := by
  unfold retrieveManifest
  rw [hm]
  simp only [if_neg hx, if_neg (Nat.not_le.mpr hatt)]
  rw [hph]

/-- Claim C8 witness: at the concrete protected store, a retrieval
without passcode yields 401 `authRequired` and the unchanged store. -/
theorem claim_C8_witness :
    loadMetadata storeC "i" = some metaC ∧ ¬ (5 : Int) > metaC.exp ∧
    metaC.attempts < MAX_ATTEMPTS ∧ metaC.passcodeHash = some "H" ∧
    retrieveManifest vpC 5 "i" ⟨"r", none⟩ storeC =
      (⟨401, .err ⟨"Passcode required", none, some true⟩⟩, storeC) :=
  ⟨by decide, by decide, by decide, rfl,
    claim_C8_auth_required vpC 5 "i" "r" storeC metaC "H"
      (by decide) (by decide) (by decide) rfl⟩

/-- Claim C5: a failed passcode verification on a non-expired record with
`attempts < MAX_ATTEMPTS` increments the counter by exactly one, persists
the updated record with TTL recomputed as
`max(1, floor((exp - now) / 1000))`, and fails 401 `Invalid passcode`
with `remainingAttempts = MAX_ATTEMPTS - (attempts + 1)`; the blob is
deleted exactly when the increment reaches `MAX_ATTEMPTS`, while the
metadata record is kept in both cases. -/
theorem claim_C5_failed_attempt (vp : String → String → Option Bool)
    (now : Int) (id recip p : String) (s : Store) (m : ExchangeMetadata)
    (h : String) (hm : loadMetadata s id = some m) (hx : ¬ now > m.exp)
    (hatt : m.attempts < MAX_ATTEMPTS) (hph : m.passcodeHash = some h)
    (hp : p ≠ "") (hv : vp p h = some false) :
    (retrieveManifest vp now id ⟨recip, some p⟩ s).1 =
      ⟨401, .err ⟨"Invalid passcode",
        some ((MAX_ATTEMPTS : Int) - ((m.attempts : Int) + 1)), none⟩⟩ ∧
    (retrieveManifest vp now id ⟨recip, some p⟩ s).2.kv (kvKey id) =
      some ⟨{ m with attempts := m.attempts + 1 },
        max 1 ((m.exp - now).fdiv 1000)⟩ ∧
    (retrieveManifest vp now id ⟨recip, some p⟩ s).2.bucket =
      (if m.attempts + 1 = MAX_ATTEMPTS then mapDel s.bucket (r2Key id)
        else s.bucket) := by
  have hcast : ((MAX_ATTEMPTS : Int) - ((m.attempts + 1 : Nat) : Int)) =
      (MAX_ATTEMPTS : Int) - ((m.attempts : Int) + 1) := by push_cast; ring
  have hcond : ((MAX_ATTEMPTS : Int) - ((m.attempts + 1 : Nat) : Int) ≤ 0) ↔
      (m.attempts + 1 = MAX_ATTEMPTS) := by
    unfold MAX_ATTEMPTS at *
    omega
  unfold retrieveManifest
  rw [hm]
  simp only [if_neg hx, if_neg (Nat.not_le.mpr hatt)]
  rw [hph]
  simp only [if_neg hp]
  rw [hv]
  by_cases hfull : m.attempts + 1 = MAX_ATTEMPTS
  · simp only [if_pos (hcond.mpr hfull), if_pos hfull]
    refine ⟨by rw [hcast], ?_, ?_⟩
    · simp [deletePayload, updateMetadata, mapPut_self]
    · simp [deletePayload, updateMetadata]
  · simp only [if_neg (fun hc => hfull (hcond.mp hc)), if_neg hfull]
    refine ⟨by rw [hcast], ?_, rfl⟩
    simp [updateMetadata, mapPut_self]

/-- Claim C5 witness: at the concrete protected store, a wrong passcode
yields 401 with nine remaining attempts, the counter persisted at one
with recomputed TTL, and the blob kept. -/
theorem claim_C5_witness :
    loadMetadata storeC "i" = some metaC ∧ ¬ (5 : Int) > metaC.exp ∧
    metaC.attempts < MAX_ATTEMPTS ∧ metaC.passcodeHash = some "H" ∧
    vpC "bad" "H" = some false ∧
    (retrieveManifest vpC 5 "i" ⟨"r", some "bad"⟩ storeC).1 =
      ⟨401, .err ⟨"Invalid passcode",
        some ((MAX_ATTEMPTS : Int) - ((metaC.attempts : Int) + 1)), none⟩⟩ ∧
    (retrieveManifest vpC 5 "i" ⟨"r", some "bad"⟩ storeC).2.kv (kvKey "i") =
      some ⟨{ metaC with attempts := metaC.attempts + 1 },
        max 1 ((metaC.exp - 5).fdiv 1000)⟩ :=
  ⟨by decide, by decide, by decide, rfl, by decide,
    (claim_C5_failed_attempt vpC 5 "i" "r" "bad" storeC metaC "H"
      (by decide) (by decide) (by decide) rfl (by decide) (by decide)).1,
    (claim_C5_failed_attempt vpC 5 "i" "r" "bad" storeC metaC "H"
      (by decide) (by decide) (by decide) rfl (by decide) (by decide)).2.1⟩

/-- Claim C4 (counterexample): absence and expiry both answer with status
404 but with different error payloads (`Exchange not found or expired`
versus `Exchange has expired`), so the caller-visible outcomes are not
identical as the claim states. -/
theorem claim_C4_counterexample :
    (retrieveManifest vpC 1 "i" ⟨"r", none⟩ emptyStore).1.status =
      (retrieveManifest vpC 1 "i" ⟨"r", none⟩ storeExpC).1.status ∧
    (retrieveManifest vpC 1 "i" ⟨"r", none⟩ emptyStore).1.body ≠
      (retrieveManifest vpC 1 "i" ⟨"r", none⟩ storeExpC).1.body := by
  decide

/-- Claim C4 (amended): a missing record and an expired record both fail
with HTTP status 404 — a not-found condition — but the error bodies
differ: absence answers `Exchange not found or expired` and leaves the
store untouched, while expiry answers `Exchange has expired` and deletes
both record and blob. -/
theorem claim_C4_amended (vp : String → String → Option Bool) (now : Int)
    (id : String) (req : RetrieveManifestRequest) (s : Store) :
    (loadMetadata s id = none →
      retrieveManifest vp now id req s =
        (⟨404, .err ⟨"Exchange not found or expired", none, none⟩⟩, s)) ∧
    (∀ m, loadMetadata s id = some m → now > m.exp →
      retrieveManifest vp now id req s =
        (⟨404, .err ⟨"Exchange has expired", none, none⟩⟩,
          deletePayload (deleteMetadata s id) id)) := by
  constructor
  · intro hm
    unfold retrieveManifest
    rw [hm]
  · intro m hm hx
    unfold retrieveManifest
    rw [hm]
    simp [hx]

/-- Claim C4 witness: both branches of the amended statement observed at
concrete stores. -/
theorem claim_C4_witness :
    loadMetadata emptyStore "i" = none ∧
    loadMetadata storeExpC "i" = some metaExpC ∧ (1 : Int) > metaExpC.exp ∧
    retrieveManifest vpC 1 "i" ⟨"r", none⟩ emptyStore =
      (⟨404, .err ⟨"Exchange not found or expired", none, none⟩⟩, emptyStore) ∧
    retrieveManifest vpC 1 "i" ⟨"r", none⟩ storeExpC =
      (⟨404, .err ⟨"Exchange has expired", none, none⟩⟩,
        deletePayload (deleteMetadata storeExpC "i") "i") :=
  ⟨rfl, by decide, by decide,
    (claim_C4_amended vpC 1 "i" ⟨"r", none⟩ emptyStore).1 rfl,
    (claim_C4_amended vpC 1 "i" ⟨"r", none⟩ storeExpC).2 metaExpC
      (by decide) (by decide)⟩

/-- Claim C1: round trip.  Creating an exchange from a ciphertext whose
protected header decodes to alg "dir" / enc "A256GCM", within the tier
bound and without a passcode, and then retrieving it by id without a
passcode at any time not past the stored expiry, returns the ciphertext
byte-identical to the original wrapped in a single-file manifest whose
descriptor carries the fixed content type `application/bind+json`. -/
theorem claim_C1_round_trip (env : Env) (now now' : Int) (id : String)
    (req : CreateExchangeRequest) (s : Store)
    (vp : String → String → Option Bool) (recip : String) (hdr : JweHeader)
    (hd : env.jweDecode req.payload = .ok hdr)
    (ha : hdr.alg = some "dir") (he : hdr.enc = some "A256GCM")
    (hpc : req.passcode = none)
    (hsize : req.payload.length ≤ maxPayloadFor (createTrust env req).trusted) :
    ∃ r s', createExchange env now id req s = (.created r, s') ∧
      (¬ now' > r.exp →
        retrieveManifest vp now' id ⟨recip, none⟩ s' =
          (⟨200, .manifest [⟨"application/bind+json", req.payload⟩]⟩, s')) := by
  refine ⟨createdResponse env now id req (createTrust env req),
    createdStore env now id req (createTrust env req) s,
    createExchange_ok env now id req s hdr hd ha he hsize, ?_⟩
  intro hx
  have hx' : ¬ now' > (createdMetadata env now req (createTrust env req)).exp := hx
  have hload : loadMetadata (createdStore env now id req (createTrust env req) s) id =
      some (createdMetadata env now req (createTrust env req)) := by
    simp [loadMetadata, createdStore, storeMetadata, mapPut_self]
  have hph : (createdMetadata env now req (createTrust env req)).passcodeHash = none := by
    simp [createdMetadata, hashTruthyFor, passcodeHashFor, hpc]
  have hatt : ¬ (createdMetadata env now req (createTrust env req)).attempts ≥ MAX_ATTEMPTS := by
    simp [createdMetadata, MAX_ATTEMPTS]
  have hpay : loadPayload (createdStore env now id req (createTrust env req) s) id =
      some req.payload := by
    simp [loadPayload, createdStore, storeMetadata, storePayload, mapPut_self]
  unfold retrieveManifest
  rw [hload]
  simp only [if_neg hx', if_neg hatt]
  rw [hph]
  unfold finishLoad
  rw [hpay]

/-- Claim C1 witness: a concrete passcode-less creation followed by an
in-lifetime retrieval returns the original ciphertext in the manifest. -/
theorem claim_C1_witness :
    reqC.passcode = none ∧
    reqC.payload.length ≤ maxPayloadFor (createTrust envC reqC).trusted ∧
    ∃ r s', createExchange envC 0 "i" reqC emptyStore = (.created r, s') ∧
      retrieveManifest vpC 50 "i" ⟨"r", none⟩ s' =
        (⟨200, .manifest [⟨"application/bind+json", reqC.payload⟩]⟩, s') := by
  refine ⟨rfl, by decide, ?_⟩
  obtain ⟨r, s', hc, hret⟩ :=
    claim_C1_round_trip envC 0 50 "i" reqC emptyStore vpC "r"
      ⟨some "dir", some "A256GCM"⟩ rfl rfl rfl rfl (by decide)
  obtain ⟨hr, hs⟩ := createExchange_created_inv envC 0 "i" reqC emptyStore r s' hc
  subst hr
  exact ⟨_, s', hc, hret (by decide)⟩

/-! ### base64url lemmas -/

theorem b64char_mem (n : Nat) : b64char n ∈ b64StdChars := by
  unfold b64char
  cases hq : b64StdChars.get? n with
  | none => rw [List.getD_eq_get?, hq]; decide
  | some c =>
    rw [List.getD_eq_get?, hq]
    exact List.get?_mem hq

theorem b64char_ne_pad (n : Nat) : b64char n ≠ '=' := by
  intro h
  have hm := b64char_mem n
  rw [h] at hm
  revert hm
  decide

theorem b64urlChar_mem : ∀ c ∈ b64StdChars, b64urlChar c ∈ b64UrlChars := by
  decide

theorem b64urlChar_ne_pad : ∀ c ∈ b64StdChars, b64urlChar c ≠ '=' := by
  decide

/-- Structure of `btoa` output on inputs of length `3k + 2`: a block of
alphabet characters of length `4k + 3` followed by one padding `=`. -/
theorem btoaGroups_mod2 (n : Nat) : ∀ l : List Nat, l.length = n →
    l.length % 3 = 2 →
    ∃ cs : List Char, btoaGroups l = cs ++ ['='] ∧
      cs.length = l.length / 3 * 4 + 3 ∧ ∀ c ∈ cs, c ∈ b64StdChars := by
  induction n using Nat.strong_induction_on with
  | _ n ih =>
    intro l hlen hmod
    match l with
    | [] => simp at hmod
    | [a] => simp at hmod
    | [a, b] =>
      refine ⟨[b64char (a / 4), b64char (a % 4 * 16 + b / 16),
        b64char (b % 16 * 4)], rfl, by simp, ?_⟩
      intro c hc
      simp only [List.mem_cons, List.not_mem_nil, or_false] at hc
      rcases hc with h | h | h <;> rw [h] <;> exact b64char_mem _
    | a :: b :: c :: rest =>
      have hlr : rest.length % 3 = 2 := by
        simp only [List.length_cons] at hmod
        omega
      have hlt : rest.length < n := by
        simp only [List.length_cons] at hlen
        omega
      obtain ⟨cs, hcs, hcl, hmem⟩ := ih rest.length hlt rest rfl hlr
      refine ⟨b64char (a / 4) :: b64char (a % 4 * 16 + b / 16) ::
        b64char (b % 16 * 4 + c / 64) :: b64char (c % 64) :: cs, ?_, ?_, ?_⟩
      · show btoaGroups (a :: b :: c :: rest) = _
        unfold btoaGroups
        rw [hcs]
        rfl
      · simp only [List.length_cons, hcl]
        omega
      · intro x hx
        simp only [List.mem_cons] at hx
        rcases hx with h | h | h | h | h
        · rw [h]; exact b64char_mem _
        · rw [h]; exact b64char_mem _
        · rw [h]; exact b64char_mem _
        · rw [h]; exact b64char_mem _
        · exact hmem x h

theorem dropWhile_pad_eq_self (l : List Char) (h : ∀ c ∈ l, c ≠ '=') :
    l.dropWhile (· = '=') = l := by
  cases l with
  | nil => rfl
  | cons a t =>
    rw [List.dropWhile_cons]
    simp [h a (List.mem_cons_self a t)]

theorem dropTrailingEq_append (cs : List Char) (h : ∀ c ∈ cs, c ≠ '=') :
    dropTrailingEq (cs ++ ['=']) = cs := by
  unfold dropTrailingEq
  rw [List.reverse_append]
  show (('=' :: cs.reverse).dropWhile (· = '=')).reverse = cs
  rw [List.dropWhile_cons]
  simp only [decide_eq_true_eq, if_pos rfl]
  rw [dropWhile_pad_eq_self cs.reverse (fun c hc => h c (List.mem_reverse.mp hc))]
  exact List.reverse_reverse cs

/-- Claim C9: for every ciphertext with the required header and size
within the tier bound, creation with a generated identifier succeeds, and
the identifier — URL-safe unpadded base64 of the 32 random bytes — is
exactly 43 characters long, all drawn from the base64url alphabet. -/
theorem claim_C9_identifier (bytes : List Nat)
    (hlen : bytes.length = EXCHANGE_ID_BYTES) (env : Env) (now : Int)
    (req : CreateExchangeRequest) (s : Store) (hdr : JweHeader)
    (hd : env.jweDecode req.payload = .ok hdr)
    (ha : hdr.alg = some "dir") (he : hdr.enc = some "A256GCM")
    (hsize : req.payload.length ≤ maxPayloadFor (createTrust env req).trusted) :
    (∃ r s', createExchange env now (generateExchangeId bytes) req s =
      (.created r, s')) ∧
    (generateExchangeId bytes).length = 43 ∧
    ∀ c ∈ (generateExchangeId bytes).data, c ∈ b64UrlChars := by
  have hmod : bytes.length % 3 = 2 := by rw [hlen]; rfl
  obtain ⟨cs, hcs, hcl, hmem⟩ := btoaGroups_mod2 bytes.length bytes rfl hmod
  have hmap : (btoaGroups bytes).map b64urlChar = cs.map b64urlChar ++ ['='] := by
    rw [hcs, List.map_append]
    rfl
  have hmemmap : ∀ c ∈ cs.map b64urlChar, c ≠ '=' := by
    intro c hc
    obtain ⟨c', hc', rfl⟩ := List.mem_map.mp hc
    exact b64urlChar_ne_pad c' (hmem c' hc')
  have hid : (generateExchangeId bytes).data = cs.map b64urlChar := by
    show (base64url bytes).data = _
    unfold base64url
    rw [hmap, dropTrailingEq_append _ hmemmap]
  refine ⟨⟨createdResponse env now (generateExchangeId bytes) req (createTrust env req),
    createdStore env now (generateExchangeId bytes) req (createTrust env req) s,
    createExchange_ok env now (generateExchangeId bytes) req s hdr hd ha he hsize⟩,
    ?_, ?_⟩
  · show (generateExchangeId bytes).data.length = 43
    rw [hid, List.length_map, hcl, hlen]
    rfl
  · intro c hc
    rw [hid] at hc
    obtain ⟨c', hc', rfl⟩ := List.mem_map.mp hc
    exact b64urlChar_mem c' (hmem c' hc')

/-- Claim C9 witness: the identifier generated from 32 zero bytes has 43
base64url characters and a concrete creation with it succeeds. -/
theorem claim_C9_witness :
    (List.replicate 32 0).length = EXCHANGE_ID_BYTES ∧
    (generateExchangeId (List.replicate 32 0)).length = 43 ∧
    ∃ r s', createExchange envC 0 (generateExchangeId (List.replicate 32 0))
      reqC emptyStore = (.created r, s') := by
  refine ⟨by decide, ?_, ?_⟩
  · exact (claim_C9_identifier (List.replicate 32 0) (by decide) envC 0 reqC
      emptyStore ⟨some "dir", some "A256GCM"⟩ rfl rfl rfl (by decide)).2.1
  · exact (claim_C9_identifier (List.replicate 32 0) (by decide) envC 0 reqC
      emptyStore ⟨some "dir", some "A256GCM"⟩ rfl rfl rfl (by decide)).1

/-! ### Hex and split lemmas -/

theorem hexChars_getD_mem (n : Nat) : hexChars.getD n '0' ∈ hexChars := by
  cases hq : hexChars.get? n with
  | none => rw [List.getD_eq_get?, hq]; decide
  | some c =>
    rw [List.getD_eq_get?, hq]
    exact List.get?_mem hq

theorem hexDigitVal_getD (v : Nat) (hv : v < 16) :
    hexDigitVal (hexChars.getD v '0') = some v := by
  interval_cases v <;> decide

theorem fromHexChars_toHexByte (b : Nat) (hb : b < 256) (rest : List Char) :
    fromHexChars (toHexByte b ++ rest) = b :: fromHexChars rest := by
  have h1 : b / 16 % 16 = b / 16 := Nat.mod_eq_of_lt (by omega)
  have h2 : b / 16 < 16 := by omega
  show fromHexChars (hexChars.getD (b / 16 % 16) '0' ::
    hexChars.getD (b % 16) '0' :: rest) = b :: fromHexChars rest
  rw [fromHexChars, hexPairVal, h1, hexDigitVal_getD _ h2,
    hexDigitVal_getD _ (Nat.mod_lt b (by omega))]
  show (16 * (b / 16) + b % 16) :: fromHexChars rest = b :: fromHexChars rest
  have : 16 * (b / 16) + b % 16 = b := by omega
  rw [this]

theorem fromHexChars_toHexChars (bytes : List Nat)
    (hb : ∀ b ∈ bytes, b < 256) :
    fromHexChars (toHexChars bytes) = bytes := by
  induction bytes with
  | nil => rfl
  | cons b rest ih =>
    rw [toHexChars, fromHexChars_toHexByte b (hb b (List.mem_cons_self b rest)),
      ih (fun x hx => hb x (List.mem_cons_of_mem b hx))]

theorem toHexByte_ne_colon (b : Nat) : ∀ c ∈ toHexByte b, c ≠ ':' := by
  have hx : ∀ x ∈ hexChars, x ≠ ':' := by decide
  intro c hc
  have hmem : c ∈ hexChars := by
    simp only [toHexByte, List.mem_cons, List.not_mem_nil, or_false] at hc
    rcases hc with h | h <;> rw [h] <;> exact hexChars_getD_mem _
  exact hx c hmem

theorem toHexChars_ne_colon (bytes : List Nat) :
    ∀ c ∈ toHexChars bytes, c ≠ ':' := by
  induction bytes with
  | nil => intro c hc; simp [toHexChars] at hc
  | cons b rest ih =>
    intro c hc
    rw [toHexChars, List.mem_append] at hc
    rcases hc with h | h
    · exact toHexByte_ne_colon b c h
    · exact ih c h

theorem splitOnColon_no_colon (l : List Char) (h : ∀ c ∈ l, c ≠ ':') :
    splitOnColon l = [l] := by
  induction l with
  | nil => rfl
  | cons c rest ih =>
    rw [splitOnColon, if_neg (h c (List.mem_cons_self c rest)),
      ih (fun x hx => h x (List.mem_cons_of_mem c hx))]

theorem splitOnColon_append (a b : List Char) (h : ∀ c ∈ a, c ≠ ':') :
    splitOnColon (a ++ ':' :: b) = a :: splitOnColon b := by
  induction a with
  | nil => simp [splitOnColon]
  | cons c rest ih =>
    rw [List.cons_append, splitOnColon,
      if_neg (h c (List.mem_cons_self c rest)),
      ih (fun x hx => h x (List.mem_cons_of_mem c hx))]

theorem hashPasscode_noble_data
    (kdf : String → List Nat → Nat → Nat → List Nat) (p : String)
    (salt : List Nat) :
    (hashPasscode_noble kdf p salt).data =
      toHexChars salt ++ ':' :: toHexChars (deriveKey_noble kdf p salt) := by
  show ((toHex salt ++ ":") ++ toHex (deriveKey_noble kdf p salt)).data = _
  simp [String.data_append, toHex, List.append_assoc]

/-- Claim C10: the two passcode-module implementations are equivalent.
With PBKDF2-SHA256 abstracted as `kdf passcode salt iterations dkLen`,
the noble-hashes and WebCrypto variants derive the key with identical
parameters (`PBKDF2_ITERATIONS`, 32 bytes), produce the identical
`salt:key` hex string for a given salt, and their `verifyPasscode`
functions agree on every passcode and every stored string (including the
throwing case); moreover a hash produced by either variant verifies as
`true` under the other whenever salt and derived key are byte-valued. -/
theorem claim_C10_passcode_equiv
    (kdf : String → List Nat → Nat → Nat → List Nat) (p : String)
    (salt : List Nat) (hs : ∀ b ∈ salt, b < 256)
    (hk : ∀ b ∈ deriveKey_noble kdf p salt, b < 256) :
    (∀ q s, deriveKey_noble kdf q s = deriveKey_web kdf q s) ∧
    (∀ q s, hashPasscode_noble kdf q s = hashPasscode_web kdf q s) ∧
    (∀ q stored, verifyPasscode_noble kdf q stored =
      verifyPasscode_web kdf q stored) ∧
    verifyPasscode_web kdf p (hashPasscode_noble kdf p salt) = some true ∧
    verifyPasscode_noble kdf p (hashPasscode_web kdf p salt) = some true := by
  have hsplit : splitOnColon (hashPasscode_noble kdf p salt).data =
      [toHexChars salt, toHexChars (deriveKey_noble kdf p salt)] := by
    rw [hashPasscode_noble_data, splitOnColon_append _ _ (toHexChars_ne_colon salt),
      splitOnColon_no_colon _ (toHexChars_ne_colon _)]
  have hver : verifyPasscode_noble kdf p (hashPasscode_noble kdf p salt) =
      some true := by
    unfold verifyPasscode_noble
    rw [hsplit]
    dsimp only
    rw [fromHexChars_toHexChars salt hs, fromHexChars_toHexChars _ hk]
    simp [timingSafeEqual]
  refine ⟨fun q s => rfl, fun q s => rfl, fun q stored => rfl, ?_, ?_⟩
  · exact hver
  · exact hver

/-- Claim C10 witness: at a concrete KDF, passcode and salt, both
equivalence directions and the cross-verification hold. -/
theorem claim_C10_witness :
    (∀ b ∈ ([1, 2, 3] : List Nat), b < 256) ∧
    (∀ b ∈ deriveKey_noble kdfC "pw" [1, 2, 3], b < 256) ∧
    verifyPasscode_web kdfC "pw" (hashPasscode_noble kdfC "pw" [1, 2, 3]) =
      some true ∧
    verifyPasscode_noble kdfC "pw" (hashPasscode_web kdfC "pw" [1, 2, 3]) =
      some true :=
  ⟨by decide, by decide,
    (claim_C10_passcode_equiv kdfC "pw" [1, 2, 3] (by decide)
      (by decide)).2.2.2.1,
    (claim_C10_passcode_equiv kdfC "pw" [1, 2, 3] (by decide)
      (by decide)).2.2.2.2⟩

/-! ### Lockout lemmas -/

theorem loadMetadata_some_kv (s : Store) (id : String) (m : ExchangeMetadata)
    (hm : loadMetadata s id = some m) :
    ∃ e, s.kv (kvKey id) = some e ∧ e.value = m := by
  unfold loadMetadata at hm
  cases hk : s.kv (kvKey id) with
  | none => rw [hk] at hm; simp at hm
  | some e =>
    rw [hk] at hm
    simp only [Option.map_some', Option.some.injEq] at hm
    exact ⟨e, rfl, hm⟩

theorem retrieve_fails_of_lockedOut (vp : String → String → Option Bool)
    (t : Int) (id : String) (req : RetrieveManifestRequest) (s : Store)
    (h : lockedOut s id) :
    (retrieveManifest vp t id req s).1.status ≠ 200 := by
  unfold retrieveManifest
  cases hm : loadMetadata s id with
  | none => simp
  | some m =>
    obtain ⟨e, hk, hev⟩ := loadMetadata_some_kv s id m hm
    have hge : MAX_ATTEMPTS ≤ m.attempts := hev ▸ h e hk
    by_cases hx : t > m.exp
    · simp [hx]
    · simp [hx, hge]

theorem retrieve_kv_cases (vp : String → String → Option Bool) (t : Int)
    (id' : String) (req : RetrieveManifestRequest) (s : Store) :
    (retrieveManifest vp t id' req s).2.kv = s.kv ∨
    (retrieveManifest vp t id' req s).2.kv = mapDel s.kv (kvKey id') ∨
    (∃ m, loadMetadata s id' = some m ∧ m.attempts < MAX_ATTEMPTS ∧
      (retrieveManifest vp t id' req s).2.kv =
        mapPut s.kv (kvKey id') ⟨{ m with attempts := m.attempts + 1 },
          max 1 ((m.exp - t).fdiv 1000)⟩) := by
  unfold retrieveManifest
  cases hm : loadMetadata s id' with
  | none => exact Or.inl rfl
  | some m =>
    by_cases hx : t > m.exp
    · simp only [if_pos hx]
      exact Or.inr (Or.inl rfl)
    · simp only [if_neg hx]
      by_cases hl : m.attempts ≥ MAX_ATTEMPTS
      · simp only [if_pos hl]
        exact Or.inr (Or.inl rfl)
      · simp only [if_neg hl]
        cases hph : m.passcodeHash with
        | none =>
          unfold finishLoad
          cases hpay : loadPayload s id' <;> exact Or.inl rfl
        | some hsh =>
          cases hq : req.passcode with
          | none => exact Or.inl rfl
          | some p =>
            by_cases hpe : p = ""
            · simp only [if_pos hpe]
              exact Or.inl trivial
            · simp only [if_neg hpe]
              cases hv : vp p hsh with
              | none => exact Or.inl rfl
              | some b =>
                cases b with
                | true =>
                  unfold finishLoad
                  cases hpay : loadPayload s id' <;> exact Or.inl rfl
                | false =>
                  refine Or.inr (Or.inr ⟨m, rfl, Nat.lt_of_not_le hl, ?_⟩)
                  rw [hph]
                  dsimp only
                  by_cases hr : (MAX_ATTEMPTS : Int) -
                      ((m.attempts + 1 : Nat) : Int) ≤ 0
                  · simp only [if_pos hr]
                    rfl
                  · simp only [if_neg hr]
                    rfl

theorem lockedOut_preserved (vp : String → String → Option Bool) (t : Int)
    (id id' : String) (req : RetrieveManifestRequest) (s : Store)
    (h : lockedOut s id) :
    lockedOut (retrieveManifest vp t id' req s).2 id := by
  intro e he
  rcases retrieve_kv_cases vp t id' req s with hk | hk | ⟨m, hm, hlt, hk⟩
  · rw [hk] at he
    exact h e he
  · rw [hk] at he
    by_cases hid : kvKey id = kvKey id'
    · simp [mapDel, hid] at he
    · rw [mapDel_ne _ _ _ hid] at he
      exact h e he
  · by_cases hid : kvKey id = kvKey id'
    · have hid2 : id = id' := kvKey_inj hid
      subst hid2
      obtain ⟨e0, hk0, hev⟩ := loadMetadata_some_kv s id m hm
      have hge := h e0 hk0
      rw [hev] at hge
      omega
    · rw [hk, mapPut_ne _ _ _ _ hid] at he
      exact h e he

theorem lockedOut_runAny (vp : String → String → Option Bool)
    (M : List (Int × String × RetrieveManifestRequest)) (s : Store)
    (id : String) (h : lockedOut s id) :
    lockedOut (runAnyRetrieves vp M s) id := by
  induction M generalizing s with
  | nil => exact h
  | cons x rest ih =>
    obtain ⟨t, i, req⟩ := x
    exact ih _ (lockedOut_preserved vp t id i req s h)

theorem failed_attempt_step (vp : String → String → Option Bool) (t : Int)
    (id recip p : String) (s : Store) (m : ExchangeMetadata) (h : String)
    (hm : loadMetadata s id = some m) (hx : ¬ t > m.exp)
    (hatt : m.attempts < MAX_ATTEMPTS) (hph : m.passcodeHash = some h)
    (hp : p ≠ "") (hv : vp p h = some false) :
    loadMetadata (retrieveManifest vp t id ⟨recip, some p⟩ s).2 id =
      some { m with attempts := m.attempts + 1 } := by
  unfold retrieveManifest
  rw [hm]
  simp only [if_neg hx, if_neg (Nat.not_le.mpr hatt)]
  rw [hph]
  simp only [if_neg hp]
  rw [hv]
  dsimp only
  by_cases hr : (MAX_ATTEMPTS : Int) - ((m.attempts + 1 : Nat) : Int) ≤ 0
  · simp only [if_pos hr]
    simp [loadMetadata, deletePayload, updateMetadata, mapPut_self]
  · simp only [if_neg hr]
    simp [loadMetadata, updateMetadata, mapPut_self]

theorem failed_attempts_iterate (vp : String → String → Option Bool)
    (id : String) (h : String) (m : ExchangeMetadata)
    (hph : m.passcodeHash = some h) :
    ∀ (L : List (Int × RetrieveManifestRequest)) (k : Nat) (s : Store),
    loadMetadata s id = some { m with attempts := k } →
    k + L.length ≤ MAX_ATTEMPTS →
    (∀ x ∈ L, ¬ x.1 > m.exp ∧
      ∃ p, x.2.passcode = some p ∧ p ≠ "" ∧ vp p h = some false) →
    loadMetadata (runRetrieves vp id L s) id =
      some { m with attempts := k + L.length } := by
  intro L
  induction L with
  | nil =>
    intro k s hm _ _
    simpa using hm
  | cons x rest ih =>
    intro k s hm hle hfail
    obtain ⟨t, req⟩ := x
    obtain ⟨hxe, p, hpq, hpne, hvf⟩ := hfail (t, req) (List.mem_cons_self _ _)
    obtain ⟨recip, pc⟩ := req
    simp only at hpq
    cases hpq
    have hkm : ({ m with attempts := k } : ExchangeMetadata).attempts <
        MAX_ATTEMPTS := by
      simp only [List.length_cons] at hle
      show k < MAX_ATTEMPTS
      omega
    have hstep := failed_attempt_step vp t id recip p s
      { m with attempts := k } h hm hxe hkm hph hpne hvf
    rw [runRetrieves]
    have harith : k + (rest.length + 1) = (k + 1) + rest.length := by omega
    rw [List.length_cons, harith]
    exact ih (k + 1) (retrieveManifest vp t id ⟨recip, some p⟩ s).2 hstep
      (by simp only [List.length_cons] at hle; omega)
      (fun y hy => hfail y (List.mem_cons_of_mem _ hy))

/-- Claim C2: lockout is permanent.  Starting from a passcode-protected
record with zero attempts, a sequence of exactly `MAX_ATTEMPTS`
retrievals that each reach and fail passcode verification leaves the
record’s counter at `MAX_ATTEMPTS`; from then on, after any further
sequence of retrieval operations against any ids, every retrieval of
this exchange — with any passcode, including the correct one, at any
time — fails (never returns status 200): no retrieval operation returns
a locked exchange to the active state. -/
theorem claim_C2_lockout_permanent (vp : String → String → Option Bool)
    (id : String) (s : Store) (m : ExchangeMetadata) (h : String)
    (hm : loadMetadata s id = some m) (hatt : m.attempts = 0)
    (hph : m.passcodeHash = some h)
    (L : List (Int × RetrieveManifestRequest)) (hlen : L.length = MAX_ATTEMPTS)
    (hfail : ∀ x ∈ L, ¬ x.1 > m.exp ∧
      ∃ p, x.2.passcode = some p ∧ p ≠ "" ∧ vp p h = some false) :
    loadMetadata (runRetrieves vp id L s) id =
      some { m with attempts := MAX_ATTEMPTS } ∧
    ∀ (M : List (Int × String × RetrieveManifestRequest)) (t : Int)
      (req : RetrieveManifestRequest),
      (retrieveManifest vp t id req
        (runAnyRetrieves vp M (runRetrieves vp id L s))).1.status ≠ 200 := by
  have hm0 : loadMetadata s id = some { m with attempts := 0 } := by
    obtain ⟨f1, f2, f3, f4, f5, f6, f7⟩ := m
    simp only at hatt
    subst hatt
    exact hm
  have hfinal := failed_attempts_iterate vp id h m hph L 0 s hm0
    (by rw [hlen]; omega) hfail
  rw [hlen] at hfinal
  simp only [Nat.zero_add] at hfinal
  refine ⟨hfinal, ?_⟩
  intro M t req
  have hlock : lockedOut (runRetrieves vp id L s) id := by
    intro e he
    obtain ⟨e0, hk0, hev⟩ := loadMetadata_some_kv _ _ _ hfinal
    rw [hk0, Option.some.injEq] at he
    rw [← he, hev]
  exact retrieve_fails_of_lockedOut vp t id req _
    (lockedOut_runAny vp M _ id hlock)

/-- Claim C2 witness: ten concrete wrong-passcode retrievals lock the
concrete exchange; a further retrieval with the correct passcode fails. -/
theorem claim_C2_witness :
    loadMetadata storeC "i" = some metaC ∧ metaC.attempts = 0 ∧
    metaC.passcodeHash = some "H" ∧ vpC "good" "H" = some true ∧
    loadMetadata
      (runRetrieves vpC "i"
        (List.replicate 10 ((0 : Int), ⟨"r", some "bad"⟩)) storeC) "i" =
      some { metaC with attempts := MAX_ATTEMPTS } ∧
    (retrieveManifest vpC 5 "i" ⟨"r", some "good"⟩
      (runAnyRetrieves vpC []
        (runRetrieves vpC "i"
          (List.replicate 10 ((0 : Int), ⟨"r", some "bad"⟩)) storeC))).1.status ≠
      200 := by
  have hc := claim_C2_lockout_permanent vpC "i" storeC metaC "H"
    (by decide) (by decide) rfl
    (List.replicate 10 ((0 : Int), ⟨"r", some "bad"⟩)) (by decide)
    (by decide)
  exact ⟨by decide, by decide, rfl, by decide, hc.1, hc.2 [] 5 ⟨"r", some "good"⟩⟩

end BindExchange
